import Mathlib

/-!
Verification development for the e-commerce data generator
(`src/generators/ecommerce_data_generator.py`).

The generator is randomized: every call to the `random` / `Faker` library is
modelled by an explicit draw record supplied to the embedded function, and the
contract of each library primitive (for example, `random.randint(1, 3)` returns
an integer in `[1, 3]`, `DataFrame.sample` without replacement returns distinct
rows of the pool) is captured by a `Valid` predicate on draws.  Money arithmetic
is modelled over exact rationals; Python `round(x, 2)` is modelled as
round-half-to-even at two decimal places on the exact value (the binary
floating-point representation error is not modelled).  Wall-clock reads
(`datetime.now()`, the `end_date="now"` bounds) are modelled by an explicit
`now` parameter.
-/

namespace EcommerceGen

/-- Floor of a rational, written so that it evaluates by kernel reduction. -/
def ratFloor (q : ℚ) : ℤ := q.num / (q.den : ℤ)

theorem ratFloor_eq (q : ℚ) : ratFloor q = ⌊q⌋ := Rat.floor_def.symm

/-- Integer rounding core of Python `round`: round half to even. -/
def roundHalfEven (q : ℚ) : ℤ :=
  if q - ratFloor q < 1 / 2 then ratFloor q
  else if 1 / 2 < q - ratFloor q then ratFloor q + 1
  else if ratFloor q % 2 = 0 then ratFloor q else ratFloor q + 1

/-- Model of Python `round(x, 2)`: round half to even at two decimal places. -/
def round2 (q : ℚ) : ℚ := (roundHalfEven (q * 100) : ℚ) / 100

/-- A rational is an exact multiple of one cent (two decimal places). -/
def IsCent (q : ℚ) : Prop := q.den ∣ 100

instance (q : ℚ) : Decidable (IsCent q) :=
  inferInstanceAs (Decidable (_ ∣ _))

theorem isCent_iff {q : ℚ} : IsCent q ↔ ∃ z : ℤ, q = (z : ℚ) / 100 := by
  constructor
  · intro h
    obtain ⟨c, hc⟩ := h
    have hcne : c ≠ 0 := by
      rintro rfl
      simp at hc
    have hc0 : (c : ℚ) ≠ 0 := Nat.cast_ne_zero.mpr hcne
    have hdc : (q.den : ℚ) * (c : ℚ) = 100 := by exact_mod_cast hc.symm
    refine ⟨q.num * (c : ℤ), ?_⟩
    push_cast
    rw [← hdc, mul_div_mul_right _ _ hc0, Rat.num_div_den]
  · rintro ⟨z, rfl⟩
    have h := Rat.den_dvd z 100
    rw [Rat.divInt_eq_div] at h
    unfold IsCent
    exact_mod_cast h

theorem roundHalfEven_intCast (z : ℤ) : roundHalfEven (z : ℚ) = z := by
  unfold roundHalfEven
  rw [ratFloor_eq, Int.floor_intCast]
  simp

theorem floor_le_roundHalfEven (q : ℚ) : ⌊q⌋ ≤ roundHalfEven q := by
  unfold roundHalfEven
  rw [ratFloor_eq]
  split_ifs <;> omega

theorem roundHalfEven_le (q : ℚ) : (roundHalfEven q : ℚ) ≤ q + 1 / 2 := by
  have h1 : (⌊q⌋ : ℚ) ≤ q := Int.floor_le q
  have h2 : q < ⌊q⌋ + 1 := Int.lt_floor_add_one q
  unfold roundHalfEven
  rw [ratFloor_eq]
  split_ifs with ha hb hc <;> push_cast <;> push_neg at * <;> linarith

theorem le_roundHalfEven (q : ℚ) : q - 1 / 2 ≤ (roundHalfEven q : ℚ) := by
  have h1 : (⌊q⌋ : ℚ) ≤ q := Int.floor_le q
  have h2 : q < ⌊q⌋ + 1 := Int.lt_floor_add_one q
  unfold roundHalfEven
  rw [ratFloor_eq]
  split_ifs with ha hb hc <;> push_cast <;> push_neg at * <;> linarith

theorem round2_le (q : ℚ) : round2 q ≤ q + 1 / 200 := by
  have h := roundHalfEven_le (q * 100)
  unfold round2
  rw [div_le_iff (by norm_num : (0 : ℚ) < 100)]
  linarith

theorem le_round2 (q : ℚ) : q - 1 / 200 ≤ round2 q := by
  have h := le_roundHalfEven (q * 100)
  unfold round2
  rw [le_div_iff (by norm_num : (0 : ℚ) < 100)]
  linarith

theorem isCent_round2 (q : ℚ) : IsCent (round2 q) :=
  isCent_iff.mpr ⟨roundHalfEven (q * 100), rfl⟩

theorem round2_cent {q : ℚ} (h : IsCent q) : round2 q = q := by
  obtain ⟨z, rfl⟩ := isCent_iff.mp h
  have hz : (z : ℚ) / 100 * 100 = (z : ℚ) := by ring
  unfold round2
  rw [hz, roundHalfEven_intCast]

theorem isCent_zero : IsCent 0 := by decide

theorem IsCent.add {a b : ℚ} (ha : IsCent a) (hb : IsCent b) : IsCent (a + b) := by
  obtain ⟨x, rfl⟩ := isCent_iff.mp ha
  obtain ⟨y, rfl⟩ := isCent_iff.mp hb
  exact isCent_iff.mpr ⟨x + y, by push_cast; ring⟩

theorem isCent_sum {l : List ℚ} (h : ∀ x ∈ l, IsCent x) : IsCent l.sum := by
  induction l with
  | nil => simpa using isCent_zero
  | cons a t ih =>
    rw [List.sum_cons]
    exact (h a (List.mem_cons_self a t)).add (ih fun x hx => h x (List.mem_cons_of_mem a hx))

theorem le_round2_of_cent_le {a q : ℚ} (ha : IsCent a) (h : a ≤ q) : a ≤ round2 q := by
  obtain ⟨z, rfl⟩ := isCent_iff.mp ha
  have h1 : (z : ℚ) ≤ q * 100 := by
    rw [div_le_iff (by norm_num : (0 : ℚ) < 100)] at h
    linarith
  have h2 : z ≤ ⌊q * 100⌋ := Int.le_floor.mpr h1
  have h3 : z ≤ roundHalfEven (q * 100) := le_trans h2 (floor_le_roundHalfEven _)
  unfold round2
  gcongr


theorem round2_le_of_le_cent {b q : ℚ} (hb : IsCent b) (h : q ≤ b) : round2 q ≤ b := by
  obtain ⟨z, rfl⟩ := isCent_iff.mp hb
  have h1 : q * 100 ≤ (z : ℚ) := by
    rw [le_div_iff (by norm_num : (0 : ℚ) < 100)] at h
    linarith
  have h2 : (roundHalfEven (q * 100) : ℚ) ≤ (z : ℚ) + 1 / 2 :=
    le_trans (roundHalfEven_le _) (by linarith)
  have h3 : roundHalfEven (q * 100) ≤ z := by
    have h4 : (roundHalfEven (q * 100) : ℚ) < (z : ℚ) + 1 := by linarith
    exact_mod_cast Int.lt_add_one_iff.mp (by exact_mod_cast h4)
  unfold round2
  gcongr

/-! ## Static catalog data, from `EcommerceDataGenerator.__init__` -/

structure Category where
  id : ℕ
  name : String
  margin : ℚ
deriving DecidableEq, Repr

/-- Product categories with typical profit margins (source lines 52-61). -/
def categories : List Category :=
  [⟨1, "Electronics", 15 / 100⟩, ⟨2, "Clothing", 40 / 100⟩, ⟨3, "Home & Garden", 35 / 100⟩,
   ⟨4, "Sports", 30 / 100⟩, ⟨5, "Books", 25 / 100⟩, ⟨6, "Toys", 45 / 100⟩,
   ⟨7, "Beauty", 50 / 100⟩, ⟨8, "Food & Grocery", 20 / 100⟩]

def defaultCategory : Category := ⟨0, "", 0⟩

/-- Base product names by category (source lines 64-79). -/
def product_templates (categoryName : String) : List String :=
  if categoryName = "Electronics" then
    ["Laptop", "Smartphone", "Tablet", "Headphones", "Smart Watch", "Camera", "Speaker", "Monitor"]
  else if categoryName = "Clothing" then
    ["T-Shirt", "Jeans", "Dress", "Jacket", "Sneakers", "Hoodie", "Shorts", "Sweater"]
  else if categoryName = "Home & Garden" then
    ["Lamp", "Rug", "Plant Pot", "Cushion", "Blanket", "Vase", "Mirror", "Clock"]
  else if categoryName = "Sports" then
    ["Yoga Mat", "Dumbbells", "Running Shoes", "Basketball", "Tennis Racket", "Bike Helmet",
     "Gym Bag", "Water Bottle"]
  else if categoryName = "Books" then
    ["Fiction Novel", "Cookbook", "Biography", "Self-Help Book", "Science Book", "History Book",
     "Art Book", "Travel Guide"]
  else if categoryName = "Toys" then
    ["Board Game", "Puzzle", "Action Figure", "Doll", "Building Blocks", "Remote Control Car",
     "Stuffed Animal", "Card Game"]
  else if categoryName = "Beauty" then
    ["Moisturizer", "Lipstick", "Perfume", "Shampoo", "Face Mask", "Nail Polish", "Sunscreen",
     "Hair Dryer"]
  else if categoryName = "Food & Grocery" then
    ["Coffee Beans", "Olive Oil", "Chocolate Box", "Spice Set", "Tea Collection", "Honey",
     "Pasta Set", "Snack Box"]
  else []

/-- Order statuses weighted toward completed (source lines 83-84). -/
def order_statuses : List String :=
  ["completed", "completed", "completed", "completed", "shipped", "processing", "cancelled",
   "returned"]

/-- Payment methods drawn uniformly (source line 287). -/
def paymentMethods : List String := ["credit_card", "debit_card", "paypal", "apple_pay"]

/-- Shipping fee choices for orders under the free-shipping threshold (source line 274). -/
def shippingOptions : List ℚ := [0, 599 / 100, 999 / 100, 1499 / 100]

/-- Discount rates drawn when the 20 percent discount roll succeeds (source line 255). -/
def discountRates : List ℚ := [1 / 10, 15 / 100, 1 / 5]

/-- Fixed platform epoch, `datetime(2023, 1, 1)` of the source (line 229), encoded as the
proleptic Gregorian day ordinal of 2023-01-01.  All dates and timestamps in the model are
integers on a common scale; only their order matters for the claims. -/
def platformEpoch : ℤ := 738521

/-! ## Record types (one field per DataFrame column of the source) -/

inductive Segment where
  | premium
  | regular
  | occasional
  | new
deriving DecidableEq, Repr

structure Customer where
  customer_id : ℕ
  email : String
  first_name : String
  last_name : String
  phone : String
  address : String
  city : String
  state : String
  zip_code : String
  country : String
  segment : Segment
  registration_date : ℤ
  is_active : Bool
  created_at : ℤ
  updated_at : ℤ
deriving DecidableEq, Repr

structure Product where
  product_id : ℕ
  sku : String
  name : String
  description : String
  category_id : ℕ
  category_name : String
  price : ℚ
  cost : ℚ
  stock_quantity : ℕ
  is_active : Bool
  created_at : ℤ
  updated_at : ℤ
deriving DecidableEq, Repr

structure Order where
  order_id : ℕ
  customer_id : ℕ
  order_date : ℤ
  status : String
  subtotal : ℚ
  shipping : ℚ
  tax : ℚ
  total : ℚ
  payment_method : String
  shipping_address : String
  shipping_city : String
  shipping_state : String
  shipping_zip : String
  created_at : ℤ
  updated_at : ℤ
deriving DecidableEq, Repr

structure OrderItem where
  order_item_id : ℕ
  order_id : ℕ
  product_id : ℕ
  quantity : ℕ
  unit_price : ℚ
  discount : ℚ
  line_total : ℚ
deriving DecidableEq, Repr

/-! ## generate_customers (source lines 86-138)

One `CustomerDraw` records the outcomes of all library randomness consumed for one
customer row: the weighted segment choice, the Faker demographic strings, the
registration date draw and the Bernoulli activity flag. -/

structure CustomerDraw where
  segment : Segment
  email : String
  first_name : String
  last_name : String
  phone : String
  address : String
  city : String
  state : String
  zip_code : String
  regDate : ℤ
  active : Bool
deriving Repr

/-- Builds the customer record of one loop iteration (source lines 119-135).
`created_at` is `datetime.combine(reg_date, datetime.min.time())`, i.e. the
registration date itself on the common time scale; `updated_at` is the wall
clock `datetime.now()`, the explicit `now` parameter here. -/
def mkCustomer (i : ℕ) (d : CustomerDraw) (now : ℤ) : Customer :=
  { customer_id := i
    email := d.email
    first_name := d.first_name
    last_name := d.last_name
    phone := d.phone
    address := d.address
    city := d.city
    state := d.state
    zip_code := d.zip_code
    country := "USA"
    segment := d.segment
    registration_date := d.regDate
    is_active := d.active
    created_at := d.regDate
    updated_at := now }

/-- Model of `generate_customers(n)`: the Python loop `for i in range(1, n + 1)`,
which is empty whenever `n ≤ 0`. -/
def generate_customers (n : ℤ) (draws : ℕ → CustomerDraw) (now : ℤ) : List Customer :=
  (List.range n.toNat).map (fun j => mkCustomer (j + 1) (draws j) now)

/-! ## generate_products (source lines 140-191) -/

/-- Category-specific price range (source lines 164-170): Electronics 50-1500,
Books 10-50, every other category 15-200. -/
def priceRange (categoryName : String) : ℚ × ℚ :=
  if categoryName = "Electronics" then (50, 1500)
  else if categoryName = "Books" then (10, 50)
  else (15, 200)

structure ProductDraw where
  catIdx : Fin 8
  baseIdx : Fin 8
  word : String
  descr : String
  priceRaw : ℚ
  stock : ℕ
  active : Bool
  createdAt : ℤ
deriving Repr

/-- Contract of the library draws consumed for one product: `random.uniform(a, b)`
returns a value of `[a, b]` for the category-keyed range, and
`random.randint(0, 500)` a stock level of `[0, 500]`. -/
def ProductDraw.Valid (d : ProductDraw) : Prop :=
  (priceRange (categories.getD d.catIdx.val defaultCategory).name).1 ≤ d.priceRaw ∧
  d.priceRaw ≤ (priceRange (categories.getD d.catIdx.val defaultCategory).name).2 ∧
  d.stock ≤ 500

/-- Left-pads a decimal string with zero characters (Python `{:02d}` / `{:05d}`). -/
def padZero (width : ℕ) (s : String) : String :=
  String.mk (List.replicate (width - s.length) '0') ++ s

/-- Builds the product record of one loop iteration (source lines 159-189). -/
def mkProduct (i : ℕ) (d : ProductDraw) (now : ℤ) : Product :=
  let category := categories.getD d.catIdx.val defaultCategory
  let price := round2 d.priceRaw
  let cost := round2 (price * (1 - category.margin))
  { product_id := i
    sku := "SKU-" ++ padZero 2 (toString category.id) ++ "-" ++ padZero 5 (toString i)
    name := d.word ++ " " ++ (product_templates category.name).getD d.baseIdx.val ""
    description := d.descr
    category_id := category.id
    category_name := category.name
    price := price
    cost := cost
    stock_quantity := d.stock
    is_active := d.active
    created_at := d.createdAt
    updated_at := now }

/-- Model of `generate_products(n)`: the loop `for i in range(1, n + 1)`. -/
def generate_products (n : ℤ) (draws : ℕ → ProductDraw) (now : ℤ) : List Product :=
  (List.range n.toNat).map (fun j => mkProduct (j + 1) (draws j) now)

/-! ## generate_orders (source lines 193-297)

Randomness consumed per order: the weighted customer sample (an index into the
customer collection), the order date, the status choice, the item-count
`randint`, the without-replacement product sample (a list of indices into the
active-product subset), per line item a quantity, a discount roll and a discount
rate choice, and the shipping, payment and update-delay choices. -/

structure ItemDraw where
  quantity : ℕ
  discountRoll : ℚ
  rateIdx : Fin 3
deriving Repr

structure OrderDraw where
  custIdx : ℕ
  orderDate : ℤ
  statusIdx : Fin 8
  nItems : ℕ
  sampleIdx : List ℕ
  items : ℕ → ItemDraw
  shipIdx : Fin 4
  payIdx : Fin 4
  updDelta : ℕ

def defaultProduct : Product :=
  { product_id := 0, sku := "", name := "", description := "", category_id := 0
    category_name := "", price := 0, cost := 0, stock_quantity := 0, is_active := false
    created_at := 0, updated_at := 0 }

def defaultCustomer : Customer :=
  { customer_id := 0, email := "", first_name := "", last_name := "", phone := "", address := ""
    city := "", state := "", zip_code := "", country := "USA", segment := Segment.regular
    registration_date := 0, is_active := true, created_at := 0, updated_at := 0 }

/-- Contract of `random.randint(1, 3)` and `random.random()` for one line item. -/
def ItemDraw.Valid (d : ItemDraw) : Prop :=
  1 ≤ d.quantity ∧ d.quantity ≤ 3 ∧ 0 ≤ d.discountRoll ∧ d.discountRoll < 1

instance (d : ItemDraw) : Decidable d.Valid := by
  unfold ItemDraw.Valid
  infer_instance

/-- Contract of the library draws consumed for one order, relative to the customer
collection, the active-product subset and the generation wall clock:
`DataFrame.sample` returns an existing row; `fake.date_time_between(min_date, "now")`
returns a time between `max(registration_date, epoch)` and now; `randint(2, 6)` /
`randint(1, 4)` depending on the premium segment; the product sample is
without replacement (distinct existing rows of the active subset) of size
`min(n_items, len(active_products))`; `randint(0, 5)` for the update delay. -/
def OrderDraw.Valid (customers : List Customer) (active : List Product) (now : ℤ)
    (d : OrderDraw) : Prop :=
  d.custIdx < customers.length ∧
  max (customers.getD d.custIdx defaultCustomer).registration_date platformEpoch ≤ d.orderDate ∧
  d.orderDate ≤ now ∧
  (if (customers.getD d.custIdx defaultCustomer).segment = Segment.premium
    then 2 ≤ d.nItems ∧ d.nItems ≤ 6 else 1 ≤ d.nItems ∧ d.nItems ≤ 4) ∧
  d.sampleIdx.Nodup ∧
  (∀ i ∈ d.sampleIdx, i < active.length) ∧
  d.sampleIdx.length = min d.nItems active.length ∧
  (∀ j, (d.items j).Valid) ∧
  d.updDelta ≤ 5

/-- Builds one order line item (source lines 249-268): 20 percent discount
chance, discount rounded to cents before use, line total rounded to cents. -/
def mkOrderItem (itemId orderId : ℕ) (p : Product) (d : ItemDraw) : OrderItem :=
  let discount := if d.discountRoll < 1 / 5
    then round2 (p.price * discountRates.getD d.rateIdx.val 0) else 0
  { order_item_id := itemId
    order_id := orderId
    product_id := p.product_id
    quantity := d.quantity
    unit_price := p.price
    discount := discount
    line_total := round2 ((p.price - discount) * (d.quantity : ℚ)) }

/-- Builds the line items of one order from the sampled products, threading the
global `order_item_id` counter (source lines 248-270). -/
def buildItems (orderId startId : ℕ) (ps : List Product) (ds : ℕ → ItemDraw) : List OrderItem :=
  match ps with
  | [] => []
  | p :: rest =>
    mkOrderItem startId orderId p (ds 0) :: buildItems orderId (startId + 1) rest (fun j => ds (j + 1))

/-- The products sampled for one order: the draw indices resolved against the
active-product subset (`active_products.sample(n=min(n_items, len(active_products)))`,
source line 244).  On valid draws every index resolves. -/
def orderProductsOf (active : List Product) (d : OrderDraw) : List Product :=
  d.sampleIdx.filterMap (fun i => active[i]?)

/-- Order subtotal accumulator (source lines 247, 258): the sum of the already
rounded line totals. -/
def orderSubtotalOf (its : List OrderItem) : ℚ := (its.map (fun it => it.line_total)).sum

/-- Shipping fee (source line 274): free at or above the 50 threshold, otherwise a
drawn option rounded to cents. -/
def shippingOf (sub : ℚ) (d : OrderDraw) : ℚ :=
  if sub < 50 then round2 (shippingOptions.getD d.shipIdx.val 0) else 0

/-- Builds one order together with its line items (source lines 220-295). -/
def mkOrderWithItems (customers : List Customer) (active : List Product)
    (orderId startId : ℕ) (d : OrderDraw) : Order × List OrderItem :=
  let customer := customers.getD d.custIdx defaultCustomer
  let its := buildItems orderId startId (orderProductsOf active d) d.items
  let sub := orderSubtotalOf its
  ({ order_id := orderId
     customer_id := customer.customer_id
     order_date := d.orderDate
     status := order_statuses.getD d.statusIdx.val ""
     subtotal := round2 sub
     shipping := shippingOf sub d
     tax := round2 (sub * (8 / 100))
     total := round2 (sub + shippingOf sub d + round2 (sub * (8 / 100)))
     payment_method := paymentMethods.getD d.payIdx.val ""
     shipping_address := customer.address
     shipping_city := customer.city
     shipping_state := customer.state
     shipping_zip := customer.zip_code
     created_at := d.orderDate
     updated_at := d.orderDate + (d.updDelta : ℤ) }, its)

/-- The order loop (source line 220), threading the 1-based order id and the
global order item counter. -/
def ordersGo (customers : List Customer) (active : List Product) (draws : ℕ → OrderDraw) :
    ℕ → ℕ → ℕ → List (Order × List OrderItem)
  | 0, _, _ => []
  | k + 1, orderId, startId =>
    let p := mkOrderWithItems customers active orderId startId (draws orderId)
    p :: ordersGo customers active draws k (orderId + 1) (startId + p.2.length)

/-- Model of `generate_orders(customers_df, products_df, n_orders)`.  The only
failure of the source function is the pandas `ValueError` raised by
`customers_df.sample(...)` on the first loop iteration when the customer
collection is empty; notably it does NOT fail when no product is active.  The
two returned DataFrames are the orders and the concatenated per-order items. -/
def generate_orders (customers : List Customer) (products : List Product) (n_orders : ℤ)
    (draws : ℕ → OrderDraw) : Except String (List Order × List OrderItem) :=
  let active := products.filter (fun p => p.is_active)
  if 0 < n_orders.toNat ∧ customers = [] then
    .error "a sample larger than population"
  else
    let l := ordersGo customers active draws n_orders.toNat 1 1
    .ok (l.map Prod.fst, l.flatMap Prod.snd)

/-! ## generate_all (source lines 299-349) -/

structure Dataset where
  customers : List Customer
  products : List Product
  categories : List Category
  orders : List Order
  order_items : List OrderItem
deriving DecidableEq, Repr

/-- Model of `generate_all`: generates customers, products, categories and orders in
source order and records the names of the CSV files written so far; customers.csv,
products.csv and categories.csv are written BEFORE order generation runs, so a
failing order generation leaves those three files behind. -/
def generate_all (n_customers n_products n_orders : ℤ)
    (cdraws : ℕ → CustomerDraw) (pdraws : ℕ → ProductDraw) (odraws : ℕ → OrderDraw)
    (now : ℤ) : List String × Except String Dataset :=
  let customers := generate_customers n_customers cdraws now
  let products := generate_products n_products pdraws now
  match generate_orders customers products n_orders odraws with
  | .ok (os, its) =>
    (["customers.csv", "products.csv", "categories.csv", "orders.csv", "order_items.csv"],
     .ok ⟨customers, products, categories, os, its⟩)
  | .error e => (["customers.csv", "products.csv", "categories.csv"], .error e)

/-! ## Helper lemmas about lists and the per-order constructions -/

theorem getD_eq_getElem {α : Type} {l : List α} {n : ℕ} (d : α) (h : n < l.length) :
    l.getD n d = l[n] := by
  simp [List.getD_eq_getElem?_getD, List.getElem?_eq_getElem h]

theorem getD_mem {α : Type} {l : List α} {n : ℕ} (d : α) (h : n < l.length) :
    l.getD n d ∈ l := by
  rw [getD_eq_getElem d h]
  exact List.getElem_mem h

theorem filterMap_getElem_eq_map {α : Type} (dflt : α) {l : List α} :
    ∀ {idx : List ℕ}, (∀ i ∈ idx, i < l.length) →
      idx.filterMap (fun i => l[i]?) = idx.map (fun i => l.getD i dflt) := by
  intro idx
  induction idx with
  | nil => intro _; rfl
  | cons i t ih =>
    intro h
    have hi : i < l.length := h i (List.mem_cons_self i t)
    rw [List.filterMap_cons, List.map_cons, List.getElem?_eq_getElem hi,
      ih (fun j hj => h j (List.mem_cons_of_mem i hj)), getD_eq_getElem dflt hi]

theorem buildItems_order_id {ps : List Product} :
    ∀ {orderId startId : ℕ} {ds : ℕ → ItemDraw} {it : OrderItem},
      it ∈ buildItems orderId startId ps ds → it.order_id = orderId := by
  induction ps with
  | nil => intro _ _ _ it h; simp [buildItems] at h
  | cons p rest ih =>
    intro orderId startId ds it h
    rw [buildItems, List.mem_cons] at h
    rcases h with h | h
    · subst h; rfl
    · exact ih h

theorem buildItems_map_product_id {ps : List Product} :
    ∀ {orderId startId : ℕ} {ds : ℕ → ItemDraw},
      (buildItems orderId startId ps ds).map (fun it => it.product_id) =
        ps.map (fun p => p.product_id) := by
  induction ps with
  | nil => intro _ _ _; rfl
  | cons p rest ih =>
    intro orderId startId ds
    rw [buildItems, List.map_cons, List.map_cons, ih]
    rfl

theorem buildItems_length {ps : List Product} :
    ∀ {orderId startId : ℕ} {ds : ℕ → ItemDraw},
      (buildItems orderId startId ps ds).length = ps.length := by
  induction ps with
  | nil => intro _ _ _; rfl
  | cons p rest ih =>
    intro orderId startId ds
    rw [buildItems, List.length_cons, List.length_cons, ih]

theorem buildItems_mem {ps : List Product} :
    ∀ {orderId startId : ℕ} {ds : ℕ → ItemDraw} {it : OrderItem},
      it ∈ buildItems orderId startId ps ds →
      ∃ p ∈ ps, ∃ j, it = mkOrderItem (startId + j) orderId p (ds j) := by
  induction ps with
  | nil => intro _ _ _ it h; simp [buildItems] at h
  | cons p rest ih =>
    intro orderId startId ds it h
    rw [buildItems, List.mem_cons] at h
    rcases h with h | h
    · exact ⟨p, List.mem_cons_self p rest, 0, by simpa using h⟩
    · obtain ⟨q, hq, j, hj⟩ := ih h
      refine ⟨q, List.mem_cons_of_mem p hq, j + 1, ?_⟩
      rw [hj]
      congr 1
      omega

theorem buildItems_line_total_cent {ps : List Product} :
    ∀ {orderId startId : ℕ} {ds : ℕ → ItemDraw} {it : OrderItem},
      it ∈ buildItems orderId startId ps ds → IsCent it.line_total := by
  intro orderId startId ds it h
  obtain ⟨p, _, j, hj⟩ := buildItems_mem h
  rw [hj]
  exact isCent_round2 _

theorem orderSubtotalOf_cent {its : List OrderItem}
    (h : ∀ it ∈ its, IsCent it.line_total) : IsCent (orderSubtotalOf its) := by
  apply isCent_sum
  intro x hx
  rw [List.mem_map] at hx
  obtain ⟨it, hit, rfl⟩ := hx
  exact h it hit

/-- On valid draws the sampled products are existing active rows, and exactly
`min n_items (length active)` many of them. -/
theorem orderProductsOf_spec {active : List Product} {d : OrderDraw}
    (hlt : ∀ i ∈ d.sampleIdx, i < active.length) :
    (∀ p ∈ orderProductsOf active d, p ∈ active) ∧
      (orderProductsOf active d).length = d.sampleIdx.length := by
  constructor
  · intro p hp
    rw [orderProductsOf, List.mem_filterMap] at hp
    obtain ⟨i, _, hi⟩ := hp
    exact List.getElem?_mem hi
  · rw [orderProductsOf, filterMap_getElem_eq_map defaultProduct hlt]
    simp

/-- On valid draws the sampled products have pairwise distinct product ids,
provided the active rows themselves carry distinct product ids. -/
theorem orderProductsOf_nodup {active : List Product} {d : OrderDraw}
    (hnd : d.sampleIdx.Nodup) (hlt : ∀ i ∈ d.sampleIdx, i < active.length)
    (hids : (active.map (fun p => p.product_id)).Nodup) :
    ((orderProductsOf active d).map (fun p => p.product_id)).Nodup := by
  rw [orderProductsOf, filterMap_getElem_eq_map defaultProduct hlt, List.map_map]
  apply List.Nodup.map_on ?_ hnd
  intro i hi j hj hf
  have hi' : i < active.length := hlt i hi
  have hj' : j < active.length := hlt j hj
  simp only [Function.comp_apply] at hf
  rw [getD_eq_getElem defaultProduct hi', getD_eq_getElem defaultProduct hj'] at hf
  have hmi : i < (active.map (fun p => p.product_id)).length := by simpa using hi'
  have hmj : j < (active.map (fun p => p.product_id)).length := by simpa using hj'
  have h1 : (active.map (fun p => p.product_id)).get ⟨i, hmi⟩ =
      (active.map (fun p => p.product_id)).get ⟨j, hmj⟩ := by
    simp only [List.get_eq_getElem, List.getElem_map]
    exact hf
  have h2 := hids.get_inj_iff.mp h1
  exact Fin.mk.inj h2

/-! ## Field-level description of one constructed order -/

theorem mk_items_eq (c : List Customer) (a : List Product) (oid sid : ℕ) (d : OrderDraw) :
    (mkOrderWithItems c a oid sid d).2 = buildItems oid sid (orderProductsOf a d) d.items := rfl

theorem mk_order_id (c : List Customer) (a : List Product) (oid sid : ℕ) (d : OrderDraw) :
    (mkOrderWithItems c a oid sid d).1.order_id = oid := rfl

theorem mk_customer_id (c : List Customer) (a : List Product) (oid sid : ℕ) (d : OrderDraw) :
    (mkOrderWithItems c a oid sid d).1.customer_id =
      (c.getD d.custIdx defaultCustomer).customer_id := rfl

theorem mk_order_date (c : List Customer) (a : List Product) (oid sid : ℕ) (d : OrderDraw) :
    (mkOrderWithItems c a oid sid d).1.order_date = d.orderDate := rfl

theorem mk_subtotal (c : List Customer) (a : List Product) (oid sid : ℕ) (d : OrderDraw) :
    (mkOrderWithItems c a oid sid d).1.subtotal =
      round2 (orderSubtotalOf (mkOrderWithItems c a oid sid d).2) := rfl

theorem mk_shipping (c : List Customer) (a : List Product) (oid sid : ℕ) (d : OrderDraw) :
    (mkOrderWithItems c a oid sid d).1.shipping =
      shippingOf (orderSubtotalOf (mkOrderWithItems c a oid sid d).2) d := rfl

theorem mk_tax (c : List Customer) (a : List Product) (oid sid : ℕ) (d : OrderDraw) :
    (mkOrderWithItems c a oid sid d).1.tax =
      round2 (orderSubtotalOf (mkOrderWithItems c a oid sid d).2 * (8 / 100)) := rfl

theorem mk_total (c : List Customer) (a : List Product) (oid sid : ℕ) (d : OrderDraw) :
    (mkOrderWithItems c a oid sid d).1.total =
      round2 (orderSubtotalOf (mkOrderWithItems c a oid sid d).2 +
        shippingOf (orderSubtotalOf (mkOrderWithItems c a oid sid d).2) d +
        round2 (orderSubtotalOf (mkOrderWithItems c a oid sid d).2 * (8 / 100))) := rfl

/-- The accumulated subtotal of an order is an exact cent amount, hence the stored
(re-rounded) subtotal equals it. -/
theorem mk_subtotal_cent (c : List Customer) (a : List Product) (oid sid : ℕ) (d : OrderDraw) :
    IsCent (orderSubtotalOf (mkOrderWithItems c a oid sid d).2) := by
  rw [mk_items_eq]
  exact orderSubtotalOf_cent (fun it hit => buildItems_line_total_cent hit)

theorem mk_subtotal_eq (c : List Customer) (a : List Product) (oid sid : ℕ) (d : OrderDraw) :
    (mkOrderWithItems c a oid sid d).1.subtotal =
      orderSubtotalOf (mkOrderWithItems c a oid sid d).2 := by
  rw [mk_subtotal, round2_cent (mk_subtotal_cent c a oid sid d)]

set_option maxRecDepth 8000 in
theorem shippingOptions_round2_mem : ∀ i : Fin 4,
    round2 (shippingOptions.getD i.val 0) ∈ shippingOptions := by
  intro i
  fin_cases i <;> with_unfolding_all decide

/-! ## The order loop -/

theorem ordersGo_mem {c : List Customer} {a : List Product} {d : ℕ → OrderDraw} :
    ∀ {k oid sid : ℕ} {p : Order × List OrderItem},
      p ∈ ordersGo c a d k oid sid →
      ∃ j s, j < k ∧ p = mkOrderWithItems c a (oid + j) s (d (oid + j)) := by
  intro k
  induction k with
  | zero => intro oid sid p h; simp [ordersGo] at h
  | succ n ih =>
    intro oid sid p h
    rw [ordersGo] at h
    rcases List.mem_cons.mp h with h | h
    · exact ⟨0, sid, Nat.succ_pos n, by simpa using h⟩
    · obtain ⟨j, s, hj, hp⟩ := ih h
      refine ⟨j + 1, s, by omega, ?_⟩
      have hadd : oid + (j + 1) = oid + 1 + j := by omega
      rw [hadd]
      exact hp

theorem ordersGo_order_id_lb {c : List Customer} {a : List Product} {d : ℕ → OrderDraw}
    {k oid sid : ℕ} {p : Order × List OrderItem} (h : p ∈ ordersGo c a d k oid sid) :
    oid ≤ p.1.order_id := by
  obtain ⟨j, s, _, hp⟩ := ordersGo_mem h
  rw [hp, mk_order_id]
  omega

theorem ordersGo_flat_lb {c : List Customer} {a : List Product} {d : ℕ → OrderDraw} :
    ∀ {k oid sid : ℕ} {it : OrderItem},
      it ∈ (ordersGo c a d k oid sid).flatMap Prod.snd → oid ≤ it.order_id := by
  intro k
  induction k with
  | zero => intro oid sid it h; simp [ordersGo] at h
  | succ n ih =>
    intro oid sid it h
    rw [ordersGo] at h
    rw [List.flatMap_cons, List.mem_append] at h
    rcases h with h | h
    · rw [mk_items_eq] at h
      rw [buildItems_order_id h]
    · exact le_trans (by omega) (ih h)

theorem ordersGo_filter {c : List Customer} {a : List Product} {d : ℕ → OrderDraw} :
    ∀ {k oid sid : ℕ} {o : Order} {its : List OrderItem},
      (o, its) ∈ ordersGo c a d k oid sid →
      ((ordersGo c a d k oid sid).flatMap Prod.snd).filter
          (fun it => it.order_id == o.order_id) = its := by
  intro k
  induction k with
  | zero => intro oid sid o its h; simp [ordersGo] at h
  | succ n ih =>
    intro oid sid o its h
    rw [ordersGo] at h ⊢
    rw [List.flatMap_cons, List.filter_append]
    rcases List.mem_cons.mp h with h | h
    · have ho : o.order_id = oid := by
        have h0 := congrArg (fun p => (Prod.fst p).order_id) h
        simpa [mk_order_id] using h0
      have hits : its = (mkOrderWithItems c a oid sid (d oid)).2 :=
        congrArg Prod.snd h
      have h1 : (mkOrderWithItems c a oid sid (d oid)).2.filter
          (fun it => it.order_id == o.order_id) = (mkOrderWithItems c a oid sid (d oid)).2 := by
        rw [List.filter_eq_self]
        intro it hit
        rw [mk_items_eq] at hit
        simp [buildItems_order_id hit, ho]
      have h2 : List.filter (fun it => it.order_id == o.order_id)
          ((ordersGo c a d n (oid + 1) (sid +
            (mkOrderWithItems c a oid sid (d oid)).2.length)).flatMap Prod.snd) = [] := by
        rw [List.filter_eq_nil_iff]
        intro it hit
        have hlb := ordersGo_flat_lb hit
        simp only [beq_iff_eq]
        omega
      rw [h1, h2, List.append_nil]
      exact hits.symm
    · have hlb : oid + 1 ≤ o.order_id := ordersGo_order_id_lb h
      have h1 : (mkOrderWithItems c a oid sid (d oid)).2.filter
          (fun it => it.order_id == o.order_id) = [] := by
        rw [List.filter_eq_nil_iff]
        intro it hit
        rw [mk_items_eq] at hit
        have := buildItems_order_id hit
        simp only [beq_iff_eq]
        omega
      rw [h1, List.nil_append]
      exact ih h

/-! ## Destructuring a successful order-generation run -/

theorem generate_orders_ok {customers : List Customer} {products : List Product}
    {n : ℤ} {draws : ℕ → OrderDraw} {os : List Order} {its : List OrderItem}
    (h : generate_orders customers products n draws = .ok (os, its)) :
    os = (ordersGo customers (products.filter (fun p => p.is_active)) draws
        n.toNat 1 1).map Prod.fst ∧
      its = (ordersGo customers (products.filter (fun p => p.is_active)) draws
        n.toNat 1 1).flatMap Prod.snd := by
  simp only [generate_orders] at h
  split_ifs at h with hc
  rw [Except.ok.injEq, Prod.mk.injEq] at h
  exact ⟨h.1.symm, h.2.symm⟩

/-! ## Concrete fixture used by the witnesses: one regular customer, one active
product priced exactly 50.00, one order drawing that product once without
discount, so the order subtotal sits exactly on the free-shipping boundary. -/

def wCustomer : Customer :=
  { customer_id := 1, email := "a@example.com", first_name := "Ann", last_name := "Lee",
    phone := "555", address := "1 Main St", city := "Springfield", state := "CA",
    zip_code := "90001", country := "USA", segment := Segment.regular,
    registration_date := platformEpoch, is_active := true,
    created_at := platformEpoch, updated_at := platformEpoch }

def wProduct : Product :=
  { product_id := 1, sku := "SKU-01-00001", name := "Nice Laptop", description := "d",
    category_id := 1, category_name := "Electronics", price := 50, cost := 425 / 10,
    stock_quantity := 3, is_active := true, created_at := 0, updated_at := 0 }

def wItemDraw : ItemDraw := { quantity := 1, discountRoll := 1 / 2, rateIdx := 0 }

def wOrderDraw : OrderDraw :=
  { custIdx := 0, orderDate := platformEpoch, statusIdx := 0, nItems := 1, sampleIdx := [0],
    items := fun _ => wItemDraw, shipIdx := 1, payIdx := 0, updDelta := 0 }

def wOD : ℕ → OrderDraw := fun _ => wOrderDraw

def wOrderOut : Order :=
  { order_id := 1, customer_id := 1, order_date := 738521, status := "completed",
    subtotal := 50, shipping := 0, tax := 4, total := 54, payment_method := "credit_card",
    shipping_address := "1 Main St", shipping_city := "Springfield", shipping_state := "CA",
    shipping_zip := "90001", created_at := 738521, updated_at := 738521 }

def wItemOut : OrderItem :=
  { order_item_id := 1, order_id := 1, product_id := 1, quantity := 1, unit_price := 50,
    discount := 0, line_total := 50 }

/-! ## Claim theorems -/

/-- C1: for every order produced by generate_orders, the stored subtotal equals
round(sum of that order line totals, 2) — the loop accumulates the per-line
totals and the stored subtotal is the order-level rounding of that sum (a no-op,
since each stored line total is already an exact cent amount) — the stored tax
equals round(subtotal times 0.08, 2) and the stored total equals
round(subtotal + shipping + tax, 2). -/
theorem order_money_invariants
    (customers : List Customer) (products : List Product) (n : ℤ) (draws : ℕ → OrderDraw)
    (os : List Order) (its : List OrderItem)
    (hok : generate_orders customers products n draws = Except.ok (os, its)) :
    ∀ o ∈ os,
      o.subtotal = round2 (((its.filter (fun it => it.order_id == o.order_id)).map
        (fun it => it.line_total)).sum) ∧
      o.tax = round2 (o.subtotal * (8 / 100)) ∧
      o.total = round2 (o.subtotal + o.shipping + o.tax) := by
  obtain ⟨hos, hits⟩ := generate_orders_ok hok
  intro o ho
  rw [hos, List.mem_map] at ho
  obtain ⟨p, hp, hpo⟩ := ho
  obtain ⟨o', its'⟩ := p
  rcases hpo
  have hgrp := ordersGo_filter hp
  rw [hits, hgrp]
  obtain ⟨j, s, hj, hmk⟩ := ordersGo_mem hp
  have ho1 : o' = (mkOrderWithItems customers (products.filter (fun p => p.is_active))
      (1 + j) s (draws (1 + j))).1 := congrArg Prod.fst hmk
  have hi1 : its' = (mkOrderWithItems customers (products.filter (fun p => p.is_active))
      (1 + j) s (draws (1 + j))).2 := congrArg Prod.snd hmk
  rw [ho1, hi1]
  refine ⟨?_, ?_, ?_⟩
  · rw [mk_subtotal]
    rfl
  · rw [mk_tax, mk_subtotal_eq]
  · rw [mk_total, mk_subtotal_eq, mk_shipping, mk_tax]

set_option maxRecDepth 8000 in
/-- Witness for C1: the money invariants at the concrete one-order fixture run. -/
theorem order_money_invariants_witness :
    wOrderOut.subtotal = round2 ((([wItemOut].filter
      (fun it => it.order_id == wOrderOut.order_id)).map (fun it => it.line_total)).sum) ∧
    wOrderOut.tax = round2 (wOrderOut.subtotal * (8 / 100)) ∧
    wOrderOut.total = round2 (wOrderOut.subtotal + wOrderOut.shipping + wOrderOut.tax) :=
  order_money_invariants [wCustomer] [wProduct] 1 wOD [wOrderOut] [wItemOut]
    (by with_unfolding_all rfl) wOrderOut (List.mem_singleton.mpr rfl)

/-- C5: for every order produced by generate_orders, shipping equals 0 whenever the
subtotal is at least 50 (the threshold is inclusive), and whenever the subtotal is
below 50 the shipping fee is one of 0, 5.99, 9.99, 14.99. -/
theorem shipping_threshold
    (customers : List Customer) (products : List Product) (n : ℤ) (draws : ℕ → OrderDraw)
    (os : List Order) (its : List OrderItem)
    (hok : generate_orders customers products n draws = Except.ok (os, its)) :
    ∀ o ∈ os,
      (50 ≤ o.subtotal → o.shipping = 0) ∧
      (o.subtotal < 50 → o.shipping ∈ shippingOptions) := by
  obtain ⟨hos, _⟩ := generate_orders_ok hok
  intro o ho
  rw [hos, List.mem_map] at ho
  obtain ⟨p, hp, hpo⟩ := ho
  obtain ⟨o', its'⟩ := p
  rcases hpo
  obtain ⟨j, s, hj, hmk⟩ := ordersGo_mem hp
  have ho1 : o' = (mkOrderWithItems customers (products.filter (fun p => p.is_active))
      (1 + j) s (draws (1 + j))).1 := congrArg Prod.fst hmk
  rw [ho1]
  have hsub := mk_subtotal_eq customers (products.filter (fun p => p.is_active))
    (1 + j) s (draws (1 + j))
  constructor
  · intro hge
    rw [hsub] at hge
    rw [mk_shipping]
    unfold shippingOf
    rw [if_neg (by linarith)]
  · intro hlt
    rw [hsub] at hlt
    rw [mk_shipping]
    unfold shippingOf
    rw [if_pos hlt]
    exact shippingOptions_round2_mem _

set_option maxRecDepth 8000 in
/-- Witness for C5 at the fixture run, whose subtotal is exactly 50.00: the
inclusive threshold gives zero shipping on the boundary. -/
theorem shipping_threshold_witness :
    ((50 : ℚ) ≤ wOrderOut.subtotal → wOrderOut.shipping = 0) ∧
    (wOrderOut.subtotal < 50 → wOrderOut.shipping ∈ shippingOptions) :=
  shipping_threshold [wCustomer] [wProduct] 1 wOD [wOrderOut] [wItemOut]
    (by with_unfolding_all rfl) wOrderOut (List.mem_singleton.mpr rfl)

set_option maxRecDepth 8000 in
/-- The fixture draw satisfies the library contracts relative to the fixture
customer and product collections, at generation time `platformEpoch`. -/
theorem wOrderDraw_valid : OrderDraw.Valid [wCustomer]
    ([wProduct].filter (fun p => p.is_active)) platformEpoch wOrderDraw :=
  ⟨by with_unfolding_all decide, by with_unfolding_all decide,
    by with_unfolding_all decide, by with_unfolding_all decide,
    by with_unfolding_all decide, by with_unfolding_all decide,
    by with_unfolding_all decide,
    fun _ => (by with_unfolding_all decide : wItemDraw.Valid),
    by with_unfolding_all decide⟩

theorem wOD_valid : ∀ k, OrderDraw.Valid [wCustomer]
    ([wProduct].filter (fun p => p.is_active)) platformEpoch (wOD k) :=
  fun _ => wOrderDraw_valid

/-- C4: for every order produced by generate_orders, the order date is at least
max(the referenced customer registration date, the fixed platform epoch): orders
never precede the owning customer registration and never predate the epoch. -/
theorem order_date_bounds
    (customers : List Customer) (products : List Product) (n : ℤ) (draws : ℕ → OrderDraw)
    (now : ℤ) (os : List Order) (its : List OrderItem)
    (hids : (customers.map (fun c => c.customer_id)).Nodup)
    (hv : ∀ k, OrderDraw.Valid customers (products.filter (fun p => p.is_active)) now (draws k))
    (hok : generate_orders customers products n draws = Except.ok (os, its)) :
    ∀ o ∈ os, platformEpoch ≤ o.order_date ∧
      ∀ cu ∈ customers, cu.customer_id = o.customer_id →
        max cu.registration_date platformEpoch ≤ o.order_date := by
  obtain ⟨hos, _⟩ := generate_orders_ok hok
  intro o ho
  rw [hos, List.mem_map] at ho
  obtain ⟨p, hp, hpo⟩ := ho
  obtain ⟨o', its'⟩ := p
  rcases hpo
  obtain ⟨j, s, hj, hmk⟩ := ordersGo_mem hp
  have ho1 : o' = (mkOrderWithItems customers (products.filter (fun p => p.is_active))
      (1 + j) s (draws (1 + j))).1 := congrArg Prod.fst hmk
  obtain ⟨hci, hmax, hnow, hni, hnd, hlt, hlen, hitems, hupd⟩ := hv (1 + j)
  have hmem : customers.getD (draws (1 + j)).custIdx defaultCustomer ∈ customers :=
    getD_mem defaultCustomer hci
  have hdate : o'.order_date = (draws (1 + j)).orderDate := by rw [ho1, mk_order_date]
  have hcid : o'.customer_id =
      (customers.getD (draws (1 + j)).custIdx defaultCustomer).customer_id := by
    rw [ho1, mk_customer_id]
  constructor
  · rw [hdate]
    exact le_trans (le_max_right _ _) hmax
  · intro cu hcu hcueq
    have hsame : cu = customers.getD (draws (1 + j)).custIdx defaultCustomer :=
      List.inj_on_of_nodup_map hids hcu hmem (by rw [hcueq, hcid])
    rw [hsame, hdate]
    exact hmax

set_option maxRecDepth 8000 in
/-- Witness for C4 at the fixture run. -/
theorem order_date_bounds_witness :
    platformEpoch ≤ wOrderOut.order_date ∧
    ∀ cu ∈ [wCustomer], cu.customer_id = wOrderOut.customer_id →
      max cu.registration_date platformEpoch ≤ wOrderOut.order_date :=
  order_date_bounds [wCustomer] [wProduct] 1 wOD platformEpoch [wOrderOut] [wItemOut]
    (by with_unfolding_all decide) wOD_valid (by with_unfolding_all rfl)
    wOrderOut (List.mem_singleton.mpr rfl)

/-- C2: every line item of a generated order references an active product, no two
line items of the same order share a product id (the sample is without
replacement), and the number of line items is min(the drawn item count, the
number of active products). -/
theorem order_items_sampling
    (customers : List Customer) (products : List Product) (n : ℤ) (draws : ℕ → OrderDraw)
    (now : ℤ) (os : List Order) (its : List OrderItem)
    (hpids : (products.map (fun p => p.product_id)).Nodup)
    (hv : ∀ k, OrderDraw.Valid customers (products.filter (fun p => p.is_active)) now (draws k))
    (hok : generate_orders customers products n draws = Except.ok (os, its)) :
    ∀ o ∈ os,
      (∀ it ∈ its.filter (fun it => it.order_id == o.order_id),
        ∃ q ∈ products, q.is_active = true ∧ it.product_id = q.product_id) ∧
      ((its.filter (fun it => it.order_id == o.order_id)).map
        (fun it => it.product_id)).Nodup ∧
      (its.filter (fun it => it.order_id == o.order_id)).length =
        min (draws o.order_id).nItems (products.filter (fun p => p.is_active)).length := by
  obtain ⟨hos, hits⟩ := generate_orders_ok hok
  intro o ho
  rw [hos, List.mem_map] at ho
  obtain ⟨p, hp, hpo⟩ := ho
  obtain ⟨o', its'⟩ := p
  rcases hpo
  have hgrp := ordersGo_filter hp
  rw [hits, hgrp]
  obtain ⟨j, s, hj, hmk⟩ := ordersGo_mem hp
  have ho1 : o' = (mkOrderWithItems customers (products.filter (fun p => p.is_active))
      (1 + j) s (draws (1 + j))).1 := congrArg Prod.fst hmk
  have hi1 : its' = (mkOrderWithItems customers (products.filter (fun p => p.is_active))
      (1 + j) s (draws (1 + j))).2 := congrArg Prod.snd hmk
  have hoid : o'.order_id = 1 + j := by rw [ho1, mk_order_id]
  obtain ⟨hci, hmax, hnow, hni, hnd, hlt, hlen, hitems, hupd⟩ := hv (1 + j)
  have hanodup : ((products.filter (fun p => p.is_active)).map
      (fun p => p.product_id)).Nodup :=
    ((List.filter_sublist products).map (fun p => p.product_id)).nodup hpids
  rw [hi1, mk_items_eq]
  refine ⟨?_, ?_, ?_⟩
  · intro it hit
    obtain ⟨q, hq, jj, hjj⟩ := buildItems_mem hit
    have hqa : q ∈ products.filter (fun p => p.is_active) :=
      (orderProductsOf_spec hlt).1 q hq
    rw [List.mem_filter] at hqa
    exact ⟨q, hqa.1, hqa.2, by rw [hjj]; rfl⟩
  · rw [buildItems_map_product_id]
    exact orderProductsOf_nodup hnd hlt hanodup
  · rw [buildItems_length, (orderProductsOf_spec hlt).2, hoid]
    exact hlen

set_option maxRecDepth 8000 in
/-- Witness for C2 at the fixture run. -/
theorem order_items_sampling_witness :
    (∀ it ∈ [wItemOut].filter (fun it => it.order_id == wOrderOut.order_id),
      ∃ q ∈ [wProduct], q.is_active = true ∧ it.product_id = q.product_id) ∧
    (([wItemOut].filter (fun it => it.order_id == wOrderOut.order_id)).map
      (fun it => it.product_id)).Nodup ∧
    ([wItemOut].filter (fun it => it.order_id == wOrderOut.order_id)).length =
      min (wOD wOrderOut.order_id).nItems
        ([wProduct].filter (fun p => p.is_active)).length :=
  order_items_sampling [wCustomer] [wProduct] 1 wOD platformEpoch [wOrderOut] [wItemOut]
    (by with_unfolding_all decide) wOD_valid (by with_unfolding_all rfl)
    wOrderOut (List.mem_singleton.mpr rfl)

/-! ## Discount arithmetic -/

theorem discountRates_getD_mem : ∀ i : Fin 3, discountRates.getD i.val 0 ∈ discountRates := by
  intro i
  fin_cases i <;> simp [discountRates]

theorem discountRates_getD_bounds : ∀ i : Fin 3,
    0 < discountRates.getD i.val 0 ∧ discountRates.getD i.val 0 ≤ 1 / 5 := by
  intro i
  fin_cases i <;> norm_num [discountRates]

theorem discount_bounds {price r : ℚ} (h10 : 10 ≤ price) (hr0 : 0 < r) (hr5 : r ≤ 1 / 5) :
    0 ≤ round2 (price * r) ∧ round2 (price * r) < price ∧
      round2 (price * r) ≤ price / 5 + 1 / 200 := by
  have hub := round2_le (price * r)
  have hple : price * r ≤ price * (1 / 5) :=
    mul_le_mul_of_nonneg_left hr5 (by linarith)
  have hp5 : price * (1 / 5) = price / 5 := by ring
  have h0 : (0 : ℚ) ≤ price * r := mul_nonneg (by linarith) (le_of_lt hr0)
  refine ⟨le_round2_of_cent_le isCent_zero h0, by linarith, by linarith⟩

theorem line_total_pos {price disc : ℚ} {qty : ℕ} (h10 : 10 ≤ price) (hd0 : 0 ≤ disc)
    (hdu : disc ≤ price / 5 + 1 / 200) (hq : 1 ≤ qty) :
    0 < round2 ((price - disc) * (qty : ℚ)) := by
  have hq1 : (1 : ℚ) ≤ (qty : ℚ) := by exact_mod_cast hq
  have hpd : (799 : ℚ) / 100 ≤ price - disc := by linarith
  have hbase : price - disc ≤ (price - disc) * (qty : ℚ) :=
    le_mul_of_one_le_right (by linarith) hq1
  have hlb := le_round2 ((price - disc) * (qty : ℚ))
  linarith

theorem mkOrderItem_unit_price (i o : ℕ) (q : Product) (d : ItemDraw) :
    (mkOrderItem i o q d).unit_price = q.price := rfl

theorem mkOrderItem_quantity (i o : ℕ) (q : Product) (d : ItemDraw) :
    (mkOrderItem i o q d).quantity = d.quantity := rfl

theorem mkOrderItem_discount (i o : ℕ) (q : Product) (d : ItemDraw) :
    (mkOrderItem i o q d).discount = (if d.discountRoll < 1 / 5
      then round2 (q.price * discountRates.getD d.rateIdx.val 0) else 0) := rfl

theorem mkOrderItem_line_total (i o : ℕ) (q : Product) (d : ItemDraw) :
    (mkOrderItem i o q d).line_total =
      round2 ((q.price - (mkOrderItem i o q d).discount) * (d.quantity : ℚ)) := rfl

/-- C10: every line item of a generated order (over a product pool whose prices are
exact cent amounts of at least 10, as generate_products produces) has discount 0 or
round(unit_price times r, 2) for r among 0.10, 0.15, 0.20, the discount lies in
[0, unit_price), and the stored line total round((unit_price - discount) times
quantity, 2) is strictly positive. -/
theorem item_discount_line_total
    (customers : List Customer) (products : List Product) (n : ℤ) (draws : ℕ → OrderDraw)
    (now : ℤ) (os : List Order) (its : List OrderItem)
    (hprice : ∀ p ∈ products, IsCent p.price ∧ 10 ≤ p.price)
    (hv : ∀ k, OrderDraw.Valid customers (products.filter (fun p => p.is_active)) now (draws k))
    (hok : generate_orders customers products n draws = Except.ok (os, its)) :
    ∀ it ∈ its,
      (it.discount = 0 ∨ ∃ r ∈ discountRates, it.discount = round2 (it.unit_price * r)) ∧
      0 ≤ it.discount ∧ it.discount < it.unit_price ∧
      it.line_total = round2 ((it.unit_price - it.discount) * (it.quantity : ℚ)) ∧
      0 < it.line_total := by
  obtain ⟨_, hits⟩ := generate_orders_ok hok
  intro it hit
  rw [hits, List.mem_flatMap] at hit
  obtain ⟨p, hp, hitp⟩ := hit
  obtain ⟨j, s, hj, hmk⟩ := ordersGo_mem hp
  have hi1 : p.2 = (mkOrderWithItems customers (products.filter (fun p => p.is_active))
      (1 + j) s (draws (1 + j))).2 := congrArg Prod.snd hmk
  rw [hi1, mk_items_eq] at hitp
  obtain ⟨hci, hmax, hnow, hni, hnd, hlt, hlen, hitems, hupd⟩ := hv (1 + j)
  obtain ⟨q, hq, jj, hjj⟩ := buildItems_mem hitp
  have hqa : q ∈ products.filter (fun p => p.is_active) := (orderProductsOf_spec hlt).1 q hq
  have hqp : q ∈ products := (List.mem_filter.mp hqa).1
  obtain ⟨hqc, hq10⟩ := hprice q hqp
  obtain ⟨hqty1, hqty3, hroll0, hroll1⟩ := hitems jj
  subst hjj
  rw [mkOrderItem_unit_price, mkOrderItem_quantity, mkOrderItem_discount,
    mkOrderItem_line_total, mkOrderItem_discount]
  obtain ⟨hr0, hr5⟩ := discountRates_getD_bounds ((draws (1 + j)).items jj).rateIdx
  by_cases hroll : ((draws (1 + j)).items jj).discountRoll < 1 / 5
  · rw [if_pos hroll]
    obtain ⟨hd0, hdlt, hdub⟩ := discount_bounds hq10 hr0 hr5
    refine ⟨Or.inr ⟨_, discountRates_getD_mem _, rfl⟩, hd0, hdlt, rfl,
      line_total_pos hq10 hd0 hdub hqty1⟩
  · rw [if_neg hroll]
    refine ⟨Or.inl rfl, le_refl 0, by linarith, rfl,
      line_total_pos hq10 (le_refl 0) (by linarith) hqty1⟩

set_option maxRecDepth 8000 in
/-- Witness for C10 at the fixture run. -/
theorem item_discount_line_total_witness :
    (wItemOut.discount = 0 ∨
      ∃ r ∈ discountRates, wItemOut.discount = round2 (wItemOut.unit_price * r)) ∧
    0 ≤ wItemOut.discount ∧ wItemOut.discount < wItemOut.unit_price ∧
    wItemOut.line_total =
      round2 ((wItemOut.unit_price - wItemOut.discount) * (wItemOut.quantity : ℚ)) ∧
    0 < wItemOut.line_total :=
  item_discount_line_total [wCustomer] [wProduct] 1 wOD platformEpoch [wOrderOut] [wItemOut]
    (by intro p hp
        rw [List.mem_singleton] at hp
        subst hp
        exact ⟨by with_unfolding_all decide, by with_unfolding_all decide⟩)
    wOD_valid (by with_unfolding_all rfl) wItemOut (List.mem_singleton.mpr rfl)

/-! ## Product generation facts -/

instance (d : ProductDraw) : Decidable d.Valid := by
  unfold ProductDraw.Valid
  infer_instance

theorem mkProduct_price (i : ℕ) (d : ProductDraw) (now : ℤ) :
    (mkProduct i d now).price = round2 d.priceRaw := rfl

theorem mkProduct_cost (i : ℕ) (d : ProductDraw) (now : ℤ) :
    (mkProduct i d now).cost = round2 ((mkProduct i d now).price *
      (1 - (categories.getD d.catIdx.val defaultCategory).margin)) := rfl

theorem mkProduct_category_id (i : ℕ) (d : ProductDraw) (now : ℤ) :
    (mkProduct i d now).category_id = (categories.getD d.catIdx.val defaultCategory).id := rfl

theorem mkProduct_category_name (i : ℕ) (d : ProductDraw) (now : ℤ) :
    (mkProduct i d now).category_name =
      (categories.getD d.catIdx.val defaultCategory).name := rfl

set_option maxRecDepth 8000 in
theorem categories_facts : ∀ i : Fin 8,
    categories.getD i.val defaultCategory ∈ categories ∧
    3 / 20 ≤ (categories.getD i.val defaultCategory).margin ∧
    (categories.getD i.val defaultCategory).margin ≤ 1 / 2 ∧
    (10 : ℚ) ≤ (priceRange (categories.getD i.val defaultCategory).name).1 ∧
    IsCent (priceRange (categories.getD i.val defaultCategory).name).1 ∧
    IsCent (priceRange (categories.getD i.val defaultCategory).name).2 := by
  intro i
  fin_cases i <;>
    exact ⟨by with_unfolding_all decide, by with_unfolding_all decide,
      by with_unfolding_all decide, by with_unfolding_all decide,
      by with_unfolding_all decide, by with_unfolding_all decide⟩

/-- C3: for every product produced by generate_products, cost equals
round(price times (1 - category.margin), 2) and cost < price, where price is
drawn from the category-keyed range (per `priceRange`: Electronics 50-1500,
Books 10-50, all other categories 15-200) and every category margin lies
strictly between 0 and 1. -/
theorem product_cost_margin (n : ℤ) (draws : ℕ → ProductDraw) (now : ℤ)
    (hv : ∀ j, (draws j).Valid) :
    (∀ cat ∈ categories, 0 < cat.margin ∧ cat.margin < 1) ∧
    ∀ p ∈ generate_products n draws now,
      ∃ cat ∈ categories, p.category_id = cat.id ∧ p.category_name = cat.name ∧
        p.cost = round2 (p.price * (1 - cat.margin)) ∧ p.cost < p.price ∧
        (priceRange cat.name).1 ≤ p.price ∧ p.price ≤ (priceRange cat.name).2 := by
  refine ⟨by with_unfolding_all decide, ?_⟩
  intro p hp
  rw [generate_products, List.mem_map] at hp
  obtain ⟨j, _, hpj⟩ := hp
  obtain ⟨hlo, hhi, _⟩ := hv j
  obtain ⟨hcmem, hm15, hm12, h10, hclo, hchi⟩ := categories_facts (draws j).catIdx
  refine ⟨categories.getD (draws j).catIdx.val defaultCategory, hcmem, ?_, ?_, ?_, ?_, ?_, ?_⟩
  · rw [← hpj, mkProduct_category_id]
  · rw [← hpj, mkProduct_category_name]
  · rw [← hpj, mkProduct_cost]
  · rw [← hpj, mkProduct_cost, mkProduct_price]
    have hprlo : (priceRange (categories.getD (draws j).catIdx.val defaultCategory).name).1 ≤
        round2 (draws j).priceRaw := le_round2_of_cent_le hclo hlo
    have hp10 : (10 : ℚ) ≤ round2 (draws j).priceRaw := le_trans h10 hprlo
    have hub := round2_le (round2 (draws j).priceRaw *
      (1 - (categories.getD (draws j).catIdx.val defaultCategory).margin))
    have hpm : (10 : ℚ) * (3 / 20) ≤ round2 (draws j).priceRaw *
        (categories.getD (draws j).catIdx.val defaultCategory).margin :=
      mul_le_mul hp10 hm15 (by norm_num) (by linarith)
    have hring : round2 (draws j).priceRaw *
        (1 - (categories.getD (draws j).catIdx.val defaultCategory).margin) =
        round2 (draws j).priceRaw - round2 (draws j).priceRaw *
          (categories.getD (draws j).catIdx.val defaultCategory).margin := by ring
    linarith [hub, hring, hpm]
  · rw [← hpj, mkProduct_price]
    exact le_round2_of_cent_le hclo hlo
  · rw [← hpj, mkProduct_price]
    exact round2_le_of_le_cent hchi hhi

def wProductDraw : ProductDraw :=
  { catIdx := 0, baseIdx := 0, word := "Nice", descr := "d", priceRaw := 100,
    stock := 5, active := true, createdAt := 0 }

def wPD : ℕ → ProductDraw := fun _ => wProductDraw

theorem wProductDraw_valid : wProductDraw.Valid := by with_unfolding_all decide

theorem wPD_valid : ∀ j, (wPD j).Valid := fun _ => wProductDraw_valid

/-- The product the fixture draw generates: an Electronics item priced 100.00 with
cost 85.00 under the 15 percent margin. -/
def wProductOut : Product :=
  { product_id := 1, sku := "SKU-01-00001", name := "Nice Laptop", description := "d",
    category_id := 1, category_name := "Electronics", price := 100, cost := 85,
    stock_quantity := 5, is_active := true, created_at := 0, updated_at := 0 }

set_option maxRecDepth 8000 in
/-- Witness for C3 at the one-product fixture run. -/
theorem product_cost_margin_witness :
    (∀ cat ∈ categories, 0 < cat.margin ∧ cat.margin < 1) ∧
    (∃ cat ∈ categories, wProductOut.category_id = cat.id ∧
      wProductOut.category_name = cat.name ∧
      wProductOut.cost = round2 (wProductOut.price * (1 - cat.margin)) ∧
      wProductOut.cost < wProductOut.price ∧
      (priceRange cat.name).1 ≤ wProductOut.price ∧
      wProductOut.price ≤ (priceRange cat.name).2) :=
  ⟨(product_cost_margin 1 wPD 0 wPD_valid).1,
   (product_cost_margin 1 wPD 0 wPD_valid).2 wProductOut (by
      have h : generate_products 1 wPD 0 = [wProductOut] := by with_unfolding_all rfl
      rw [h]
      exact List.mem_singleton.mpr rfl)⟩

/-! ## Error handling and determinism claims -/

def wInactiveProduct : Product := { wProduct with is_active := false }

def wCD : ℕ → CustomerDraw := fun _ =>
  { segment := Segment.regular, email := "a@example.com", first_name := "Ann",
    last_name := "Lee", phone := "555", address := "1 Main St", city := "Springfield",
    state := "CA", zip_code := "90001", regDate := platformEpoch, active := true }

/-- The order the fixture draw produces when the only product is inactive: an
order with NO line items, subtotal 0 and a drawn shipping fee. -/
def wEmptyOrderOut : Order :=
  { order_id := 1, customer_id := 1, order_date := 738521, status := "completed",
    subtotal := 0, shipping := 599 / 100, tax := 0, total := 599 / 100,
    payment_method := "credit_card", shipping_address := "1 Main St",
    shipping_city := "Springfield", shipping_state := "CA", shipping_zip := "90001",
    created_at := 738521, updated_at := 738521 }

set_option maxRecDepth 8000 in
/-- C6 counterexample: with a nonempty customer pool, a product collection whose
only record is inactive and a positive order count, generate_orders does NOT fail
with any error: it silently succeeds and produces an order with an empty item
list.  The source has no InputError check at all. -/
theorem no_active_products_counterexample :
    generate_orders [wCustomer] [wInactiveProduct] 1 wOD =
      Except.ok ([wEmptyOrderOut], []) := by
  with_unfolding_all rfl

theorem orderProductsOf_nil (d : OrderDraw) : orderProductsOf [] d = [] := by
  unfold orderProductsOf
  induction d.sampleIdx with
  | nil => rfl
  | cons i t ih =>
    rw [List.filterMap_cons, List.getElem?_nil]
    exact ih

/-- C6 amended: if the product collection passed to generate_orders contains no
active record (and the customer pool is nonempty), generate_orders succeeds,
produces NO line items at all, and every produced order has subtotal 0 — it
silently produces orders with empty item lists instead of failing. -/
theorem no_active_products_empty_items
    (customers : List Customer) (products : List Product) (n : ℤ) (draws : ℕ → OrderDraw)
    (hne : ¬customers = [])
    (hact : products.filter (fun p => p.is_active) = []) :
    ∃ os, generate_orders customers products n draws = Except.ok (os, []) ∧
      ∀ o ∈ os, o.subtotal = 0 := by
  refine ⟨(ordersGo customers [] draws n.toNat 1 1).map Prod.fst, ?_, ?_⟩
  · simp only [generate_orders, hact]
    rw [if_neg (by simp [hne])]
    have hflat : (ordersGo customers [] draws n.toNat 1 1).flatMap Prod.snd = [] := by
      rw [List.flatMap_eq_nil_iff]
      intro p hp
      obtain ⟨j, s, hj, hmk⟩ := ordersGo_mem hp
      have h2 : p.2 = (mkOrderWithItems customers [] (1 + j) s (draws (1 + j))).2 :=
        congrArg Prod.snd hmk
      rw [h2, mk_items_eq, orderProductsOf_nil]
      rfl
    rw [hflat]
  · intro o ho
    rw [List.mem_map] at ho
    obtain ⟨p, hp, hpo⟩ := ho
    obtain ⟨j, s, hj, hmk⟩ := ordersGo_mem hp
    have ho1 : o = (mkOrderWithItems customers [] (1 + j) s (draws (1 + j))).1 := by
      rw [← hpo]
      exact congrArg Prod.fst hmk
    rw [ho1, mk_subtotal, mk_items_eq, orderProductsOf_nil]
    exact round2_cent isCent_zero

set_option maxRecDepth 8000 in
/-- Witness for the amended C6 at the concrete inactive-product fixture. -/
theorem no_active_products_empty_items_witness :
    ∃ os, generate_orders [wCustomer] [wInactiveProduct] 2 wOD = Except.ok (os, []) ∧
      ∀ o ∈ os, o.subtotal = 0 :=
  no_active_products_empty_items [wCustomer] [wInactiveProduct] 2 wOD
    (by with_unfolding_all decide) (by with_unfolding_all rfl)

set_option maxRecDepth 8000 in
/-- C9 counterexample: at the concrete negative count -1 every generator returns
normally with an empty output instead of failing with an InputError; the source
validates nothing and `range(1, n + 1)` is simply empty. -/
theorem negative_count_counterexample :
    generate_customers (-1) wCD 0 = [] ∧ generate_products (-1) wPD 0 = [] ∧
    generate_orders [wCustomer] [wProduct] (-1) wOD = Except.ok ([], []) := by
  refine ⟨?_, ?_, ?_⟩ <;> with_unfolding_all rfl

/-- C9 amended: a nonpositive count never fails: each generator treats a negative
count exactly like zero and returns an empty sequence (generate_orders returns an
ok pair of empty collections); zero therefore also yields an empty sequence. -/
theorem nonpositive_count_empty (n : ℤ) (hn : n ≤ 0) :
    (∀ cdraws now, generate_customers n cdraws now = []) ∧
    (∀ pdraws now, generate_products n pdraws now = []) ∧
    (∀ customers products odraws,
      generate_orders customers products n odraws = Except.ok ([], [])) := by
  have h0 : n.toNat = 0 := by omega
  refine ⟨?_, ?_, ?_⟩
  · intro cdraws now
    rw [generate_customers, h0]
    rfl
  · intro pdraws now
    rw [generate_products, h0]
    rfl
  · intro customers products odraws
    simp only [generate_orders, h0]
    rw [if_neg (by simp)]
    rfl

set_option maxRecDepth 8000 in
/-- Witness for the amended C9 at the concrete count -3 (and, through the
theorem, the zero-count case as well). -/
theorem nonpositive_count_empty_witness :
    generate_customers (-3) wCD 0 = [] ∧ generate_products (-3) wPD 0 = [] ∧
    generate_orders [wCustomer] [wProduct] (-3) wOD = Except.ok ([], []) :=
  ⟨(nonpositive_count_empty (-3) (by norm_num)).1 wCD 0,
   (nonpositive_count_empty (-3) (by norm_num)).2.1 wPD 0,
   (nonpositive_count_empty (-3) (by norm_num)).2.2 [wCustomer] [wProduct] wOD⟩

set_option maxRecDepth 8000 in
/-- C7 counterexample: two invocations of the full pipeline with IDENTICAL draw
streams (same seed) and identical counts, but at different wall-clock instants,
produce different collections: `datetime.now()` flows verbatim into the
customers updated_at column, so seed and counts alone do not determine the
output bytes. -/
theorem determinism_counterexample :
    generate_all 1 0 0 wCD wPD wOD 0 ≠ generate_all 1 0 0 wCD wPD wOD 1 := by
  intro h
  have h2 : ((generate_all 1 0 0 wCD wPD wOD 0).2.toOption.map Dataset.customers) =
      ((generate_all 1 0 0 wCD wPD wOD 1).2.toOption.map Dataset.customers) :=
    congrArg (fun r => r.2.toOption.map Dataset.customers) h
  have hL : (generate_all 1 0 0 wCD wPD wOD 0).2.toOption.map Dataset.customers =
      some [mkCustomer 1 (wCD 0) 0] := by with_unfolding_all rfl
  have hR : (generate_all 1 0 0 wCD wPD wOD 1).2.toOption.map Dataset.customers =
      some [mkCustomer 1 (wCD 0) 1] := by with_unfolding_all rfl
  rw [hL, hR] at h2
  have h3 : mkCustomer 1 (wCD 0) 0 = mkCustomer 1 (wCD 0) 1 :=
    (List.cons.inj (Option.some.inj h2)).1
  have h4 : (mkCustomer 1 (wCD 0) 0).updated_at = (mkCustomer 1 (wCD 0) 1).updated_at :=
    congrArg Customer.updated_at h3
  exact absurd h4 (by with_unfolding_all decide)

/-- C7 amended: the pipeline is deterministic once the wall-clock instant is fixed
alongside the seed-determined draw streams and the counts: generate_all is a pure
function of counts, draws and clock, so two invocations with equal streams, equal
counts AND equal clock yield identical collections.  (As stated, with only seed
and counts fixed, the claim fails: the counterexample varies just the clock.) -/
theorem generate_all_deterministic (nc np no : ℤ) (cdraws : ℕ → CustomerDraw)
    (pdraws : ℕ → ProductDraw) (odraws : ℕ → OrderDraw) (now : ℤ)
    (r1 r2 : List String × Except String Dataset)
    (h1 : r1 = generate_all nc np no cdraws pdraws odraws now)
    (h2 : r2 = generate_all nc np no cdraws pdraws odraws now) : r1 = r2 :=
  h1.trans h2.symm

/-- Witness for the amended C7. -/
theorem generate_all_deterministic_witness :
    generate_all 1 0 0 wCD wPD wOD 0 = generate_all 1 0 0 wCD wPD wOD 0 :=
  generate_all_deterministic 1 0 0 wCD wPD wOD 0 _ _ rfl rfl

set_option maxRecDepth 8000 in
/-- C8 counterexample: with zero customers and one requested order, the run fails
during order generation, yet the three CSV files written beforehand remain — the
failing run has already produced output, contradicting the all-or-nothing claim. -/
theorem partial_output_counterexample :
    (generate_all 0 0 1 wCD wPD wOD 0).1 =
      ["customers.csv", "products.csv", "categories.csv"] ∧
    (generate_all 0 0 1 wCD wPD wOD 0).2 =
      Except.error "a sample larger than population" := by
  constructor <;> with_unfolding_all rfl

/-- C8 amended: a run of the pipeline either succeeds with all five collections
generated and all five files written, or fails during order generation with
exactly the first three files (customers, products, categories) already written —
so a failing run leaves partial output rather than none. -/
theorem generate_all_file_trace (nc np no : ℤ) (cdraws : ℕ → CustomerDraw)
    (pdraws : ℕ → ProductDraw) (odraws : ℕ → OrderDraw) (now : ℤ) :
    (∃ d, generate_all nc np no cdraws pdraws odraws now =
      (["customers.csv", "products.csv", "categories.csv", "orders.csv",
        "order_items.csv"], Except.ok d)) ∨
    (∃ e, generate_all nc np no cdraws pdraws odraws now =
      (["customers.csv", "products.csv", "categories.csv"], Except.error e)) := by
  rcases hgo : generate_orders (generate_customers nc cdraws now)
      (generate_products np pdraws now) no odraws with e | v
  · right
    refine ⟨e, ?_⟩
    simp only [generate_all]
    rw [hgo]
  · obtain ⟨os, its⟩ := v
    left
    refine ⟨⟨generate_customers nc cdraws now, generate_products np pdraws now,
      categories, os, its⟩, ?_⟩
    simp only [generate_all]
    rw [hgo]

end EcommerceGen
